import Mathlib

/-!
Verification of the Period-Based Financial Allocation Engine of the
YourtransPort application (source: `src/TOKOI_GUI.py`).

The Python source is shallowly embedded:
* float currency/rate values are modelled as `ℚ`,
* Python `int` values (ids, kilometres, numbers of months) as `ℤ`,
* `datetime.date` as a record of year/month/day integers,
* Python strings (month keys `"YYYY-MM"`, pay modes) as `String`, ordered by
  code points exactly as Python's lexicographic string comparison,
* Python dictionaries accumulated inside loops as functions computed by
  summing over the corresponding filtered list,
* `list.sort` (a stable sort) as a stable insertion sort, and
* `None`-able values as `Option`.
-/

/- ### Python string primitives

Python compares strings lexicographically by code point.  `String.data` is the
list of characters; `charListLe` is that ordering, executable by the kernel. -/

def charListLe : List Char → List Char → Bool
  | [], _ => true
  | _ :: _, [] => false
  | a :: as, b :: bs =>
    if a < b then true else if b < a then false else charListLe as bs

def strLe (a b : String) : Bool :=
  charListLe a.data b.data

/-- Python `str.strip()` on the character list (ASCII whitespace). -/
def pyStripChars (l : List Char) : List Char :=
  ((l.dropWhile Char.isWhitespace).reverse.dropWhile Char.isWhitespace).reverse

/-- Python `str.strip()`. -/
def pyStrip (s : String) : String :=
  ⟨pyStripChars s.data⟩

theorem charListLe_refl (l : List Char) : charListLe l l = true := by
  induction l with
  | nil => rfl
  | cons a as ih => simp [charListLe, lt_irrefl, ih]

theorem strLe_refl (s : String) : strLe s s = true :=
  charListLe_refl s.data

theorem charListLe_total (a b : List Char) :
    charListLe a b = true ∨ charListLe b a = true := by
  induction a generalizing b with
  | nil => exact Or.inl rfl
  | cons x xs ih =>
    cases b with
    | nil => exact Or.inr rfl
    | cons y ys =>
      rcases lt_trichotomy x y with hxy | hxy | hxy
      · exact Or.inl (by simp [charListLe, hxy])
      · subst hxy
        rcases ih ys with h | h
        · exact Or.inl (by simp [charListLe, lt_irrefl, h])
        · exact Or.inr (by simp [charListLe, lt_irrefl, h])
      · exact Or.inr (by simp [charListLe, hxy])

theorem strLe_total (a b : String) : strLe a b = true ∨ strLe b a = true :=
  charListLe_total a.data b.data

theorem charListLe_trans {a b c : List Char} (hab : charListLe a b = true)
    (hbc : charListLe b c = true) : charListLe a c = true := by
  induction a generalizing b c with
  | nil => rfl
  | cons x xs ih =>
    cases b with
    | nil => simp [charListLe] at hab
    | cons y ys =>
      cases c with
      | nil => simp [charListLe] at hbc
      | cons z zs =>
        rcases lt_trichotomy y z with hyz | hyz | hyz
        · rcases lt_trichotomy x y with hxy | hxy | hxy
          · simp [charListLe, lt_trans hxy hyz]
          · subst hxy; simp [charListLe, hyz]
          · simp [charListLe, asymm hxy, hxy] at hab
        · subst hyz
          rcases lt_trichotomy x y with hxy | hxy | hxy
          · simp [charListLe, hxy]
          · subst hxy
            simp only [charListLe, lt_irrefl, if_false] at hab hbc ⊢
            exact ih hab hbc
          · simp [charListLe, asymm hxy, hxy] at hab
        · simp [charListLe, asymm hyz, hyz] at hbc

theorem strLe_trans {a b c : String} (hab : strLe a b = true)
    (hbc : strLe b c = true) : strLe a c = true :=
  charListLe_trans hab hbc

theorem charListLe_antisymm {a b : List Char} (hab : charListLe a b = true)
    (hba : charListLe b a = true) : a = b := by
  induction a generalizing b with
  | nil =>
    cases b with
    | nil => rfl
    | cons y ys => simp [charListLe] at hba
  | cons x xs ih =>
    cases b with
    | nil => simp [charListLe] at hab
    | cons y ys =>
      rcases lt_trichotomy x y with hxy | hxy | hxy
      · simp [charListLe, asymm hxy, hxy] at hba
      · subst hxy
        simp only [charListLe, lt_irrefl, if_false] at hab hba
        exact congrArg (x :: ·) (ih hab hba)
      · simp [charListLe, asymm hxy, hxy] at hab

theorem strLe_antisymm {a b : String} (hab : strLe a b = true)
    (hba : strLe b a = true) : a = b := by
  cases a with
  | mk da =>
    cases b with
    | mk db => exact congrArg String.mk (charListLe_antisymm hab hba)

theorem strLe_of_not_le {a b : String} (h : strLe a b = false) :
    strLe b a = true := by
  rcases strLe_total a b with h1 | h1
  · rw [h1] at h; cases h
  · exact h1

/- ### Dates and the Invoice Interest Calculator (`src/TOKOI_GUI.py` 105-192) -/

/-- `datetime.date`, as plain year/month/day integers. -/
structure Date where
  year : ℤ
  month : ℤ
  day : ℤ
deriving DecidableEq, Repr

/-- `calendar.isleap` (also the leap rule inside `datetime`).  Python `%` on a
positive modulus returns a value in `[0, modulus)`, exactly as `Int.emod`. -/
def isLeap (y : ℤ) : Bool :=
  y % 4 = 0 && (y % 100 ≠ 0 || y % 400 = 0)

/-- `calendar.monthrange(y, m)[1]`: the number of days of month `m` of year
`y`, for `1 ≤ m ≤ 12` (the only way the program calls it). -/
def daysInMonth (y m : ℤ) : ℤ :=
  if m = 2 then (if isLeap y then 29 else 28)
  else if m = 4 ∨ m = 6 ∨ m = 9 ∨ m = 11 then 30
  else 31

/-- `add_months` (line 122): month arithmetic with day-of-month clamping.
Python `//` is floor division (`Int.fdiv`) and `%` the matching floor
remainder (`Int.fmod`). -/
def add_months (d : Date) (months : ℤ) : Date :=
  let y := d.year + (d.month - 1 + months).fdiv 12
  let m := (d.month - 1 + months).fmod 12 + 1
  ⟨y, m, min d.day (daysInMonth y m)⟩

/-- `_days_before_year` of `datetime`: days from 0001-01-01 to Jan 1 of `y`. -/
def daysBeforeYear (y : ℤ) : ℤ :=
  let z := y - 1
  365 * z + z.fdiv 4 - z.fdiv 100 + z.fdiv 400

/-- `_days_before_month` of `datetime`. -/
def daysBeforeMonth (y m : ℤ) : ℤ :=
  (if m = 1 then 0 else if m = 2 then 31 else if m = 3 then 59
   else if m = 4 then 90 else if m = 5 then 120 else if m = 6 then 151
   else if m = 7 then 181 else if m = 8 then 212 else if m = 9 then 243
   else if m = 10 then 273 else if m = 11 then 304 else 334)
  + (if 2 < m ∧ isLeap y then 1 else 0)

/-- `date.toordinal()`: the proleptic Gregorian day number.  Python date
subtraction `(a - b).days` is `toordinal a - toordinal b`. -/
def toordinal (d : Date) : ℤ :=
  daysBeforeYear d.year + daysBeforeMonth d.year d.month + d.day

/-- `Invoice` dataclass (line 171). -/
structure Invoice where
  invoice_no : String
  amount : ℚ
  issue_date : Date
  credit_months : ℤ
  paid_date : Option Date
  annual_rate : Option ℚ
  customer_id : Option ℤ
deriving DecidableEq, Repr

/-- The tuple returned by `calc_interest`. -/
structure InterestResult where
  due_date : Date
  end_date : Date
  delay_days : ℤ
  rate : ℚ
  interest : ℚ
deriving DecidableEq, Repr

/-- `calc_interest` (line 182).  `inv.paid_date or as_of` keeps the paid date
when present (a `date` is always truthy); the delay is floored at zero. -/
def calc_interest (inv : Invoice) (default_rate : ℚ) (as_of : Date) :
    InterestResult :=
  let due_date := add_months inv.issue_date inv.credit_months
  let end_date := inv.paid_date.getD as_of
  let delay0 := toordinal end_date - toordinal due_date
  let delay_days := if delay0 < 0 then 0 else delay0
  let rate := inv.annual_rate.getD default_rate
  let interest := inv.amount * rate * ((delay_days : ℚ) / 365)
  ⟨due_date, end_date, delay_days, rate, interest⟩

/- ### Temporal Rate Resolver (`src/TOKOI_GUI.py` 1884-1995)

A `pay_history` entry is a dict with keys month / pay_mode / salary /
stamp_cost / pay_per_trip; entries are modelled as records (field defaults and
non-dict junk entries are a JSON-loading concern outside the typed model; a
malformed month is any string that strips to empty). -/

structure PayRecord where
  month : String
  pay_mode : String
  salary : ℚ
  stamp_cost : ℚ
  pay_per_trip : ℚ
deriving DecidableEq, Repr

/-- `Driver` dataclass (line 1884). -/
structure Driver where
  did : ℤ
  name : String
  salary : ℚ
  stamp_cost : ℚ
  pay_mode : String
  pay_per_trip : ℚ
  pay_history : List PayRecord
  active : Bool
deriving DecidableEq, Repr

/-- Python truthiness of the pay-mode string: `str(x or "monthly")`. -/
def effMode (s : String) : String :=
  if s = "" then "monthly" else s

/-- Normalisation of one history entry inside `driver_pay_for_month`
(lines 1944-1957): strip the month, drop the entry when the stripped month is
empty, default an empty pay mode to `"monthly"` (numeric fields pass through:
`float(x or 0.0)` is the identity on a float). -/
def normRec (r : PayRecord) : Option PayRecord :=
  let m := pyStrip r.month
  if m = "" then none
  else some ⟨m, effMode r.pay_mode, r.salary, r.stamp_cost, r.pay_per_trip⟩

/-- The record synthesised from the driver's legacy scalar fields when the
history is empty (lines 1936-1943 and 1958-1965). -/
def legacySnap (dr : Driver) : PayRecord :=
  ⟨"1900-01", effMode dr.pay_mode, dr.salary, dr.stamp_cost, dr.pay_per_trip⟩

/-- Stable insertion step for sorting by month key. -/
def insertByMonth (r : PayRecord) : List PayRecord → List PayRecord
  | [] => [r]
  | x :: xs => if strLe r.month x.month then r :: x :: xs else x :: insertByMonth r xs

/-- Python `list.sort(key=lambda x: x["month"])`: a stable sort by the month
string, realised as stable insertion sort (an element placed before every
later element with an equal key, as Python's stable sort does). -/
def sortByMonth : List PayRecord → List PayRecord
  | [] => []
  | r :: rs => insertByMonth r (sortByMonth rs)

/-- The selection loop of `driver_pay_for_month` (lines 1967-1972):
`chosen = norm[0]; for r in norm: if r["month"] <= ym: chosen = r else: break`.
`payScan ym chosen rest` processes `rest` with the current `chosen`. -/
def payScan (ym : String) : PayRecord → List PayRecord → PayRecord
  | c, [] => c
  | c, r :: rs => if strLe r.month ym then payScan ym r rs else c

/-- `driver_pay_for_month` (line 1933): latest normalised history entry with
month ≤ `ym`, falling back to the head for a target before all history and to
the legacy fields for an empty (or fully malformed) history.  Matching on
`sortByMonth norm` against `[]` is the code's `if not norm` check
(`sortByMonth l = [] ↔ l = []`). -/
def driver_pay_for_month (dr : Driver) (ym : String) : PayRecord :=
  match dr.pay_history with
  | [] => legacySnap dr
  | _ :: _ =>
    match sortByMonth (dr.pay_history.filterMap normRec) with
    | [] => legacySnap dr
    | c :: rs => payScan ym c (c :: rs)

/-- `_sync_driver_legacy_from_history` (line 1975); the real-world current
month is threaded in as `todayYm`. -/
def syncDriverLegacyFromHistory (dr : Driver) (todayYm : String) : Driver :=
  let snap := driver_pay_for_month dr todayYm
  { dr with pay_mode := snap.pay_mode, salary := snap.salary,
            stamp_cost := snap.stamp_cost, pay_per_trip := snap.pay_per_trip }

/-- `set_driver_pay_for_month` (line 1982): strip the month key, drop any
existing entry for that exact stripped month, append the new record, re-sort
by month, then re-synchronise the legacy fields to today's snapshot. -/
def set_driver_pay_for_month (dr : Driver) (ym0 pay_mode : String)
    (salary stamp_cost pay_per_trip : ℚ) (todayYm : String) : Driver :=
  let ym := pyStrip ym0
  let kept := dr.pay_history.filter (fun h => decide (pyStrip h.month ≠ ym))
  let newRec : PayRecord := ⟨ym, effMode pay_mode, salary, stamp_cost, pay_per_trip⟩
  let hist := sortByMonth (kept ++ [newRec])
  syncDriverLegacyFromHistory { dr with pay_history := hist } todayYm

/- ### Fleet data model (`src/TOKOI_GUI.py` 1845-1895, 2057-2354) -/

/-- `Truck` dataclass (around line 1845). -/
structure Truck where
  tid : ℤ
  active : Bool
  main_driver_id : Option ℤ
  fixed_monthly_expenses : ℚ
  wear_rate_per_km : ℚ
deriving DecidableEq, Repr

/-- `Trip` dataclass (line 1855). -/
structure Trip where
  trip_id : ℤ
  truck_id : ℤ
  trip_date : Date
  driver_id : Option ℤ
  trip_km : ℤ
  revenue : ℚ
  commission_percent : ℚ
  toll_amount : ℚ
  driver_pay : ℚ
deriving DecidableEq, Repr

/-- `FuelExpense` dataclass (line 1871); `cost` is the cost per liter
(comments at lines 2124-2127 and 2238-2239). -/
structure FuelExpense where
  fuel_id : ℤ
  truck_id : ℤ
  fuel_date : Date
  liters : ℚ
  cost : ℚ
deriving DecidableEq, Repr

/-- The in-memory `TrucksModel` (line 2057); `wear_rate_per_km` is the fleet
default wear rate (initialised to 0.10 at line 2073). -/
structure TrucksModel where
  trucks : List Truck
  trips : List Trip
  fuels : List FuelExpense
  drivers : List Driver
  wear_rate_per_km : ℚ
deriving DecidableEq, Repr

/-- `TrucksModel.truck_by_id` (line 2310): first truck with the id. -/
def truck_by_id (m : TrucksModel) (tid : ℤ) : Option Truck :=
  m.trucks.find? (fun t => decide (t.tid = tid))

/-- `TrucksModel.driver_by_id` (line 2341). -/
def driver_by_id (m : TrucksModel) (did : ℤ) : Option Driver :=
  m.drivers.find? (fun d => decide (d.did = did))

/-- `TrucksModel.wear_rate_for_truck` (line 2320): the truck's positive
override, else the fleet default (`float(... or 0.10)` turns a zero stored
default into 0.10). -/
def wear_rate_for_truck (m : TrucksModel) (truck_id : Option ℤ) : ℚ :=
  let dflt := if m.wear_rate_per_km = 0 then 1/10 else m.wear_rate_per_km
  match truck_id with
  | none => dflt
  | some tid =>
    match truck_by_id m tid with
    | none => dflt
    | some t => if 0 < t.wear_rate_per_km then t.wear_rate_per_km else dflt

/- ### Trip Profitability Calculator and Distance-Weighted Cost Allocator
(`TripsPage.refresh`, `src/TOKOI_GUI.py` 2996-3205)

The page-level filters are the period filter (`period_year`/`period_month`,
`_in_period` at line 2949) and the truck filter `sel_tid`.  Dictionaries
accumulated by the loops (`km_by_month`, `km_truck_month`, ...) become
functions from the key to the accumulated value: the value a key holds after
the loop is the sum of the contributions of the matching trips, and a key
never touched holds the lookup default 0. -/

/-- `_in_period` (line 2949). -/
def in_period (period_year : Option ℤ) (period_month : ℤ) (d : Date) : Bool :=
  match period_year with
  | none => true
  | some y =>
    if d.year ≠ y then false
    else if period_month = 0 then true
    else decide (d.month = period_month)

/-- The truck-filter test applied in every scan loop of `TripsPage.refresh`. -/
def truckMatch (sel_tid : Option ℤ) (tr : Trip) : Bool :=
  match sel_tid with
  | none => true
  | some t => decide (tr.truck_id = t)

/-- A trip that will be displayed: passes the period and truck filters. -/
def tripInScope (py : Option ℤ) (pm : ℤ) (sel : Option ℤ) (tr : Trip) : Bool :=
  in_period py pm tr.trip_date && truckMatch sel tr

/-- `_month_key` (line 3028): the `(year, month)` pair. -/
def monthKey (d : Date) : ℤ × ℤ :=
  (d.year, d.month)

/-- `km_by_month` (lines 3056-3063). -/
def kmByMonth (m : TrucksModel) (py : Option ℤ) (pm : ℤ) (sel : Option ℤ)
    (mk : ℤ × ℤ) : ℤ :=
  ((m.trips.filter (fun tr => tripInScope py pm sel tr &&
      decide (monthKey tr.trip_date = mk))).map (·.trip_km)).sum

/-- `stamps_per_month` (lines 3032-3037): current stamp cost of every active
driver. -/
def stampsPerMonth (m : TrucksModel) : ℚ :=
  ((m.drivers.filter (·.active)).map (·.stamp_cost)).sum

/-- `salary_per_month` (lines 3038-3040): current salary of active drivers
whose current pay mode is monthly. -/
def salaryPerMonth (m : TrucksModel) : ℚ :=
  ((m.drivers.filter (·.active)).map
    (fun d => if effMode d.pay_mode = "monthly" then d.salary else 0)).sum

/-- `fixed_trucks_per_month` (lines 3042-3051). -/
def fixedTrucksPerMonth (m : TrucksModel) (sel : Option ℤ) : ℚ :=
  match sel with
  | some tid =>
    match truck_by_id m tid with
    | some t => if t.active then t.fixed_monthly_expenses else 0
    | none => 0
  | none => ((m.trucks.filter (·.active)).map (·.fixed_monthly_expenses)).sum

/-- `fixed_per_month_total` (line 3053). -/
def fixedPerMonthTotal (m : TrucksModel) (sel : Option ℤ) : ℚ :=
  fixedTrucksPerMonth m sel + stampsPerMonth m + salaryPerMonth m

/-- `fixed_per_km_by_month` (lines 3065-3070): the fleet-blended rate of a
month; zero unless the month's in-scope distance is positive. -/
def fleetRatePerKm (m : TrucksModel) (py : Option ℤ) (pm : ℤ) (sel : Option ℤ)
    (mk : ℤ × ℤ) : ℚ :=
  let km := kmByMonth m py pm sel mk
  if 0 < km then fixedPerMonthTotal m sel / (km : ℚ) else 0

/-- `km_truck_month` (lines 3086-3089). -/
def kmTruckMonth (m : TrucksModel) (py : Option ℤ) (pm : ℤ) (sel : Option ℤ)
    (mk : ℤ × ℤ) (tid : ℤ) : ℤ :=
  ((m.trips.filter (fun tr => tripInScope py pm sel tr &&
      decide (monthKey tr.trip_date = mk) &&
      decide (tr.truck_id = tid))).map (·.trip_km)).sum

/-- `km_driver_month` (lines 3090-3093). -/
def kmDriverMonth (m : TrucksModel) (py : Option ℤ) (pm : ℤ) (sel : Option ℤ)
    (mk : ℤ × ℤ) (did : ℤ) : ℤ :=
  ((m.trips.filter (fun tr => tripInScope py pm sel tr &&
      decide (monthKey tr.trip_date = mk) &&
      decide (tr.driver_id = some did))).map (·.trip_km)).sum

/-- `km_driver_truck_month` (line 3094). -/
def kmDriverTruckMonth (m : TrucksModel) (py : Option ℤ) (pm : ℤ)
    (sel : Option ℤ) (mk : ℤ × ℤ) (did tid : ℤ) : ℤ :=
  ((m.trips.filter (fun tr => tripInScope py pm sel tr &&
      decide (monthKey tr.trip_date = mk) &&
      decide (tr.driver_id = some did) &&
      decide (tr.truck_id = tid))).map (·.trip_km)).sum

/-- `driver_month_cost` (lines 3103-3106): the allocator's monthly cost of a
driver, taken from the driver's flat current fields. -/
def driverMonthCostCur (d : Driver) : ℚ :=
  d.stamp_cost + (if effMode d.pay_mode = "monthly" then d.salary else 0)

/-- `payroll_truck_month` (lines 3097-3124): each active driver's current
monthly cost, spread over the trucks the driver worked in the month
pro rata by distance.  A zero-cost driver is skipped, as is a zero
driver-month total or a zero driver-truck part (`if not km_total` and
`if not km_part`). -/
def payrollTruckMonth (m : TrucksModel) (py : Option ℤ) (pm : ℤ)
    (sel : Option ℤ) (mk : ℤ × ℤ) (tid : ℤ) : ℚ :=
  (m.drivers.map (fun d =>
    if d.active = true ∧ driverMonthCostCur d ≠ 0 ∧
        kmDriverMonth m py pm sel mk d.did ≠ 0 ∧
        kmDriverTruckMonth m py pm sel mk d.did tid ≠ 0 then
      driverMonthCostCur d *
        ((kmDriverTruckMonth m py pm sel mk d.did tid : ℚ) /
          (kmDriverMonth m py pm sel mk d.did : ℚ))
    else 0)).sum

/-- The truck's own fixed cost inside the per-truck tier (lines 3129-3130):
full fixed cost when the truck exists and is active, else 0. -/
def truckFixedIfActive (m : TrucksModel) (tid : ℤ) : ℚ :=
  match truck_by_id m tid with
  | some t => if t.active then t.fixed_monthly_expenses else 0
  | none => 0

/-- `fixed_per_km_truck_month` (lines 3126-3135): the per-vehicle rate; zero
unless the vehicle-month's in-scope distance is positive. -/
def truckRatePerKm (m : TrucksModel) (py : Option ℤ) (pm : ℤ) (sel : Option ℤ)
    (mk : ℤ × ℤ) (tid : ℤ) : ℚ :=
  let km := kmTruckMonth m py pm sel mk tid
  if 0 < km then
    (truckFixedIfActive m tid + payrollTruckMonth m py pm sel mk tid) / (km : ℚ)
  else 0

/-- `comm_amount` (line 3156). -/
def tripCommission (tr : Trip) : ℚ :=
  tr.revenue * (tr.commission_percent / 100)

/-- `wear_cost` (lines 3160-3161). -/
def tripWearCost (m : TrucksModel) (tr : Trip) : ℚ :=
  (tr.trip_km : ℚ) * wear_rate_for_truck m (some tr.truck_id)

/-- `fuel_cost_trip` (lines 3169-3176): the sum of the raw `cost` field of
every fuel expense on the same truck with the same date. -/
def tripFuelCost (m : TrucksModel) (tr : Trip) : ℚ :=
  ((m.fuels.filter (fun f => decide (f.truck_id = tr.truck_id) &&
      decide (f.fuel_date = tr.trip_date))).map (·.cost)).sum

/-- The derived total cost of one fuel expense, liters × cost-per-liter
(lines 2127, 3557 and 4047). -/
def fuelTotalCost (f : FuelExpense) : ℚ :=
  f.liters * f.cost

/-- `gross_profit` (line 3178). -/
def grossProfit (m : TrucksModel) (tr : Trip) : ℚ :=
  tr.revenue - tripCommission tr - tr.toll_amount - tripWearCost m tr -
    tripFuelCost m tr - tr.driver_pay

/-- `fixed_share` (lines 3180-3182). -/
def fixedShare (m : TrucksModel) (py : Option ℤ) (pm : ℤ) (sel : Option ℤ)
    (tr : Trip) : ℚ :=
  fleetRatePerKm m py pm sel (monthKey tr.trip_date) * (tr.trip_km : ℚ)

/-- `net_profit` (line 3184). -/
def netProfit (m : TrucksModel) (py : Option ℤ) (pm : ℤ) (sel : Option ℤ)
    (tr : Trip) : ℚ :=
  grossProfit m tr - fixedShare m py pm sel tr

/-- `fixed_share_truck` (lines 3190-3192). -/
def fixedShareTruck (m : TrucksModel) (py : Option ℤ) (pm : ℤ)
    (sel : Option ℤ) (tr : Trip) : ℚ :=
  truckRatePerKm m py pm sel (monthKey tr.trip_date) tr.truck_id *
    (tr.trip_km : ℚ)

/-- `net_profit_truck` (line 3193). -/
def netProfitTruck (m : TrucksModel) (py : Option ℤ) (pm : ℤ)
    (sel : Option ℤ) (tr : Trip) : ℚ :=
  grossProfit m tr - fixedShareTruck m py pm sel tr

/-- `TripsPage._calc_driver_pay` (line 3286): the stored per-trip pay written
into a trip at add/update time — the driver's current per-trip rate when the
driver exists and its current pay mode is `per_trip`, else 0. -/
def calc_driver_pay (m : TrucksModel) (driver_id : Option ℤ) : ℚ :=
  match driver_id with
  | none => 0
  | some did =>
    match driver_by_id m did with
    | none => 0
    | some d => if effMode d.pay_mode ≠ "per_trip" then 0 else d.pay_per_trip

/- ### Period Aggregator (`TrucksSummaryPage.refresh`, `src/TOKOI_GUI.py`
3990-4173) -/

/-- Python `date` order (`a < b`): lexicographic on (year, month, day). -/
def dateLtb (a b : Date) : Bool :=
  decide (a.year < b.year) ||
    (decide (a.year = b.year) &&
      (decide (a.month < b.month) ||
        (decide (a.month = b.month) && decide (a.day < b.day))))

/-- `in_range` (lines 4030-4035). -/
def in_range (d_from d_to : Option Date) (d : Date) : Bool :=
  (match d_from with
   | none => true
   | some a => ! dateLtb d a) &&
  (match d_to with
   | none => true
   | some b => ! dateLtb b d)

/-- The trips the summary aggregates (lines 4024-4037): truck filter then
date-range filter. -/
def aggTrips (m : TrucksModel) (tid : Option ℤ) (d_from d_to : Option Date) :
    List Trip :=
  (match tid with
   | none => m.trips
   | some t => m.trips.filter (fun tr => decide (tr.truck_id = t))).filter
    (fun tr => in_range d_from d_to tr.trip_date)

/-- The fuel expenses the summary aggregates (lines 4024-4038). -/
def aggFuels (m : TrucksModel) (tid : Option ℤ) (d_from d_to : Option Date) :
    List FuelExpense :=
  (match tid with
   | none => m.fuels
   | some t => m.fuels.filter (fun f => decide (f.truck_id = t))).filter
    (fun f => in_range d_from d_to f.fuel_date)

/-- `total_cost_fuel` (line 4047): liters × cost-per-liter, summed. -/
def aggTotalFuelCost (m : TrucksModel) (tid : Option ℤ)
    (d_from d_to : Option Date) : ℚ :=
  ((aggFuels m tid d_from d_to).map fuelTotalCost).sum

/-- `month_diff_inclusive` (line 4051). -/
def month_diff_inclusive (d1 d2 : Date) : ℤ :=
  (d2.year - d1.year) * 12 + (d2.month - d1.month) + 1

/-- `total_fixed` (lines 4069-4086) for an explicitly given date range (the
`if d_from and d_to` branch at line 4057 fixes `range_start`/`range_end` to
the two given dates). -/
def aggTotalFixed (m : TrucksModel) (tid : Option ℤ) (d_from d_to : Date) : ℚ :=
  let months : ℚ := (month_diff_inclusive d_from d_to : ℚ)
  match tid with
  | some t =>
    match truck_by_id m t with
    | some tk => (if tk.active then tk.fixed_monthly_expenses else 0) * months
    | none => 0
  | none =>
    (m.trucks.map (fun tk =>
      if tk.active = true ∧ 0 < tk.fixed_monthly_expenses then
        tk.fixed_monthly_expenses * months
      else 0)).sum

/-- Fuel-free rendering of `f"{n:02d}"`/`f"{n:04d}"` digits for a natural
number (fuel-based so the kernel can evaluate it). -/
def natDigitsAux : ℕ → ℕ → List Char
  | 0, _ => []
  | fuel + 1, n =>
    if n = 0 then []
    else natDigitsAux fuel (n / 10) ++ [Char.ofNat (48 + n % 10)]

/-- Decimal digits of `n`, left-padded with zeros to width `w`; for the
nonnegative years/months the program formats, this is `f"{n:0wd}"`. -/
def zeroPadded (w : ℕ) (n : ℕ) : String :=
  let ds := if n = 0 then ['0'] else natDigitsAux (n + 1) n
  ⟨List.replicate (w - ds.length) '0' ++ ds⟩

/-- `f"{yy:04d}-{mm:02d}"` (line 4121) for the calendar months the aggregator
walks (nonnegative year, month 1-12). -/
def ymStr (y m : ℤ) : String :=
  zeroPadded 4 y.toNat ++ "-" ++ zeroPadded 2 m.toNat

/-- One step of `_iter_months` (lines 4093-4100): `m += 1; if m > 12: m = 1;
y += 1`. -/
def nextMonth (ym : ℤ × ℤ) : ℤ × ℤ :=
  if 12 ≤ ym.2 then (ym.1 + 1, 1) else (ym.1, ym.2 + 1)

/-- The list of `(year, month)` pairs `_iter_months` yields, generated for the
number of iterations the while-loop performs: `month_diff_inclusive` many for
a start month ≤ end month, none otherwise. -/
def monthWalk : ℤ × ℤ → ℕ → List (ℤ × ℤ)
  | _, 0 => []
  | ym, n + 1 => ym :: monthWalk (nextMonth ym) n

/-- `_iter_months(range_start, range_end)` (line 4120). -/
def monthsInRange (rs re : Date) : List (ℤ × ℤ) :=
  monthWalk (rs.year, rs.month) (month_diff_inclusive rs re).toNat

/-- `drivers_iter` (lines 4105-4118): with a truck filter, only the truck's
active main driver (if any); without, every active driver. -/
def aggDriversIter (m : TrucksModel) (tid : Option ℤ) : List Driver :=
  match tid with
  | none => m.drivers.filter (·.active)
  | some t =>
    match truck_by_id m t with
    | none => []
    | some tk =>
      match tk.main_driver_id with
      | none => []
      | some did =>
        match driver_by_id m did with
        | none => []
        | some d => if d.active then [d] else []

/-- `total_stamps` (lines 4120-4130): for every month in range and every
driver in scope, the stamp cost of the month's snapshot from the Temporal
Rate Resolver. -/
def aggTotalStamps (m : TrucksModel) (tid : Option ℤ) (rs re : Date) : ℚ :=
  ((monthsInRange rs re).map (fun ym =>
    ((aggDriversIter m tid).map (fun d =>
      (driver_pay_for_month d (ymStr ym.1 ym.2)).stamp_cost)).sum)).sum

/-- `total_salary` (lines 4120-4131): as `aggTotalStamps`, counting the
snapshot's salary only when the snapshot's pay mode is monthly
(`str(snap.get("pay_mode", ...) or "monthly")`). -/
def aggTotalSalary (m : TrucksModel) (tid : Option ℤ) (rs re : Date) : ℚ :=
  ((monthsInRange rs re).map (fun ym =>
    ((aggDriversIter m tid).map (fun d =>
      let snap := driver_pay_for_month d (ymStr ym.1 ym.2)
      if effMode snap.pay_mode = "monthly" then snap.salary else 0)).sum)).sum

/-- `total_per_trip_pay` (line 4134). -/
def aggTotalPerTripPay (m : TrucksModel) (tid : Option ℤ)
    (d_from d_to : Option Date) : ℚ :=
  ((aggTrips m tid d_from d_to).map (·.driver_pay)).sum

/- ### Spec-side comparison definition and field-update helpers -/

/-- Modelled from the spec's words (§4.4, claim C2), for comparison with the
code: the direct driver pay of a trip is "the trip's stored driver-pay value
only if the assigned driver's current pay mode is per-trip, else 0", and 0
when the trip has no (existing) driver. -/
def specDirectDriverPay (m : TrucksModel) (tr : Trip) : ℚ :=
  match tr.driver_id with
  | none => 0
  | some did =>
    match driver_by_id m did with
    | none => 0
    | some d => if effMode d.pay_mode = "per_trip" then tr.driver_pay else 0

/-- A driver with the flat current compensation fields replaced. -/
def withFlatPay (d : Driver) (salary stamp : ℚ) (pm : String) (ptr : ℚ) :
    Driver :=
  { d with salary := salary, stamp_cost := stamp, pay_mode := pm,
           pay_per_trip := ptr }

/-- A driver with the pay history replaced. -/
def withHistory (d : Driver) (h : List PayRecord) : Driver :=
  { d with pay_history := h }

/- ### Concrete datasets for counterexamples and witnesses -/

/-- C1 data: 100 liters at 2 €/liter on truck 1, dated 2025-03-10. -/
def fuelC1 : FuelExpense := ⟨1, 1, ⟨2025, 3, 10⟩, 100, 2⟩

/-- C1 data: a trip of truck 1 on the same date. -/
def tripC1 : Trip := ⟨1, 1, ⟨2025, 3, 10⟩, none, 300, 0, 0, 0, 0⟩

/-- C1 data: the dataset holding the two. -/
def modelC1 : TrucksModel := ⟨[], [tripC1], [fuelC1], [], 0⟩

/-- C2 data: an active driver whose current pay mode is monthly. -/
def driverC2 : Driver := ⟨1, "a", 900, 100, "monthly", 0, [], true⟩

/-- C2 data: a trip assigned to that driver with stored driver pay 50
(everything else zero). -/
def tripC2 : Trip := ⟨1, 1, ⟨2025, 3, 10⟩, some 1, 0, 0, 0, 0, 50⟩

/-- C2 data: the dataset holding the two. -/
def modelC2 : TrucksModel := ⟨[], [tripC2], [], [driverC2], 0⟩

/-- C2 witness data: an active per-trip driver with rate 70. -/
def driverC2w : Driver := ⟨2, "b", 0, 0, "per_trip", 70, [], true⟩

/-- C2 witness data: a trip of that driver whose stored pay is the rate. -/
def tripC2w : Trip := ⟨2, 1, ⟨2025, 3, 11⟩, some 2, 0, 0, 0, 0, 70⟩

/-- C2 witness data: the dataset holding the two. -/
def modelC2w : TrucksModel := ⟨[], [tripC2w], [], [driverC2w], 0⟩

/-- C3 data: a driver whose January 2025 snapshot (salary 500, stamps 50)
differs from the current fields (salary 800, stamps 100, synced to the
February snapshot). -/
def driverC3 : Driver :=
  ⟨1, "c", 800, 100, "monthly", 0,
   [⟨"2025-01", "monthly", 500, 50, 0⟩, ⟨"2025-02", "monthly", 800, 100, 0⟩],
   true⟩

/-- C3 data: a January 2025 trip of that driver on truck 1, 100 km. -/
def tripC3 : Trip := ⟨1, 1, ⟨2025, 1, 10⟩, some 1, 100, 0, 0, 0, 0⟩

/-- C3 data: truck 1 (no fixed cost, to isolate the payroll allocation). -/
def truckC3 : Truck := ⟨1, true, none, 0, 0⟩

/-- C3 data: the dataset holding the three. -/
def modelC3 : TrucksModel := ⟨[truckC3], [tripC3], [], [driverC3], 0⟩

/-- C4 data: one active truck with fixed cost 300 per month. -/
def truckC4 : Truck := ⟨1, true, none, 300, 0⟩

/-- C4 data: one active monthly-mode driver, salary 800, stamp cost 100. -/
def driverC4 : Driver := ⟨1, "d", 800, 100, "monthly", 0, [], true⟩

/-- C4 data: the 500 km March 2025 trip. -/
def tripC4a : Trip := ⟨1, 1, ⟨2025, 3, 5⟩, some 1, 500, 0, 0, 0, 0⟩

/-- C4 data: the other March 2025 trip, 1500 km, for a month total of 2000. -/
def tripC4b : Trip := ⟨2, 1, ⟨2025, 3, 20⟩, some 1, 1500, 0, 0, 0, 0⟩

/-- C4 data: the scenario dataset. -/
def modelC4 : TrucksModel := ⟨[truckC4], [tripC4a, tripC4b], [], [driverC4], 0⟩

/-- C5 witness data: in January 2025 truck 1 drives 1000 km while truck 2
logs only a 0 km trip (a zero-distance vehicle-month inside an otherwise
active month); February 2025 has no trips at all. -/
def modelC5 : TrucksModel :=
  ⟨[⟨1, true, none, 250, 0⟩, ⟨2, true, none, 100, 0⟩],
   [⟨1, 1, ⟨2025, 1, 10⟩, none, 1000, 0, 0, 0, 0⟩,
    ⟨2, 2, ⟨2025, 1, 12⟩, none, 0, 0, 0, 0, 0⟩],
   [], [], 0⟩

/-- C6 witness data: a driver with one existing history entry for 2024-05. -/
def driverC6 : Driver :=
  ⟨3, "e", 640, 80, "monthly", 0, [⟨"2024-05", "monthly", 640, 80, 0⟩], true⟩

/-- C7 witness data: a driver with history entries for 2024-05 and 2024-09. -/
def driverC7 : Driver :=
  ⟨4, "f", 700, 90, "monthly", 0,
   [⟨"2024-05", "monthly", 600, 70, 0⟩, ⟨"2024-09", "monthly", 700, 90, 0⟩],
   true⟩

/-- C8 witness data: invoice issued 2025-01-31 with a one-month credit term. -/
def invoiceC8 : Invoice := ⟨"A-1", 1000, ⟨2025, 1, 31⟩, 1, none, none, none⟩

/-- C9 witness data: invoice issued 2025-01-10, one-month term (due
2025-02-10), paid early on 2025-02-05. -/
def invoiceC9 : Invoice :=
  ⟨"B-2", 1000, ⟨2025, 1, 10⟩, 1, some ⟨2025, 2, 5⟩, none, none⟩

/-- C10 witness data: an active truck with fixed cost 300 and an inactive
truck with fixed cost 500. -/
def modelC10 : TrucksModel :=
  ⟨[⟨1, true, none, 300, 0⟩, ⟨2, false, none, 500, 0⟩], [], [], [], 0⟩

/- ### Resolver lemmas -/

/-- Month-key ordering between history records. -/
def monthLe (p q : PayRecord) : Prop :=
  strLe p.month q.month = true

theorem insertByMonth_perm (r : PayRecord) (l : List PayRecord) :
    (insertByMonth r l).Perm (r :: l) := by
  induction l with
  | nil => exact List.Perm.refl _
  | cons x xs ih =>
    by_cases h : strLe r.month x.month = true
    · simp [insertByMonth, h]
    · simp only [insertByMonth, h, if_false, Bool.false_eq_true]
      exact (List.Perm.cons x ih).trans (List.Perm.swap r x xs)

theorem sortByMonth_perm (l : List PayRecord) : (sortByMonth l).Perm l := by
  induction l with
  | nil => exact List.Perm.refl _
  | cons r rs ih =>
    exact (insertByMonth_perm r (sortByMonth rs)).trans (List.Perm.cons r ih)

theorem insertByMonth_pairwise {r : PayRecord} {l : List PayRecord}
    (h : List.Pairwise monthLe l) :
    List.Pairwise monthLe (insertByMonth r l) := by
  induction l with
  | nil => simp [insertByMonth, List.Pairwise]
  | cons x xs ih =>
    rcases List.pairwise_cons.mp h with ⟨hx, hxs⟩
    by_cases hr : strLe r.month x.month = true
    · simp only [insertByMonth, hr, if_true]
      refine List.pairwise_cons.mpr ⟨?_, h⟩
      intro y hy
      rcases List.mem_cons.mp hy with rfl | hy
      · exact hr
      · exact strLe_trans hr (hx y hy)
    · simp only [insertByMonth, hr, if_false, Bool.false_eq_true]
      refine List.pairwise_cons.mpr ⟨?_, ih hxs⟩
      intro y hy
      have hy2 : y ∈ r :: xs := (insertByMonth_perm r xs).mem_iff.mp hy
      rcases List.mem_cons.mp hy2 with rfl | hy3
      · exact strLe_of_not_le (by simpa using hr)
      · exact hx y hy3

theorem sortByMonth_pairwise (l : List PayRecord) :
    List.Pairwise monthLe (sortByMonth l) := by
  induction l with
  | nil => simp [sortByMonth]
  | cons r rs ih => exact insertByMonth_pairwise ih

theorem payScan_mem (ym : String) (c : PayRecord) (rs : List PayRecord) :
    payScan ym c rs ∈ c :: rs := by
  induction rs generalizing c with
  | nil => simp [payScan]
  | cons r rs ih =>
    by_cases h : strLe r.month ym = true
    · simp only [payScan, h, if_true]
      exact List.mem_cons_of_mem c (ih r)
    · simp [payScan, h]

theorem payScan_start_le {ym : String} {c : PayRecord} {rs : List PayRecord}
    (hp : List.Pairwise monthLe (c :: rs)) : monthLe c (payScan ym c rs) := by
  induction rs generalizing c with
  | nil => exact strLe_refl _
  | cons r rs ih =>
    by_cases h : strLe r.month ym = true
    · simp only [payScan, h, if_true]
      have hcr : monthLe c r :=
        List.rel_of_pairwise_cons hp (List.mem_cons_self r rs)
      exact strLe_trans hcr (ih (List.pairwise_cons.mp hp).2)
    · simp only [payScan, h, if_false, Bool.false_eq_true]
      exact strLe_refl _

theorem payScan_le_ym {ym : String} {c : PayRecord} (rs : List PayRecord)
    (h : strLe c.month ym = true) :
    strLe (payScan ym c rs).month ym = true := by
  induction rs generalizing c with
  | nil => exact h
  | cons r rs ih =>
    by_cases hr : strLe r.month ym = true
    · simp only [payScan, hr, if_true]
      exact ih hr
    · simp only [payScan, hr, if_false, Bool.false_eq_true]
      exact h

theorem payScan_ge {ym : String} {c : PayRecord} {rs : List PayRecord}
    (hp : List.Pairwise monthLe (c :: rs)) :
    ∀ x ∈ c :: rs, strLe x.month ym = true → monthLe x (payScan ym c rs) := by
  induction rs generalizing c with
  | nil =>
    intro x hx _
    rcases List.mem_cons.mp hx with rfl | hx
    · exact strLe_refl _
    · simp at hx
  | cons r rs ih =>
    intro x hx hxle
    by_cases h : strLe r.month ym = true
    · simp only [payScan, h, if_true]
      rcases List.mem_cons.mp hx with rfl | hx
      · have hcr : monthLe x r :=
          List.rel_of_pairwise_cons hp (List.mem_cons_self r rs)
        exact strLe_trans hcr (payScan_start_le (List.pairwise_cons.mp hp).2)
      · exact ih (List.pairwise_cons.mp hp).2 x hx hxle
    · simp only [payScan, h, if_false, Bool.false_eq_true]
      rcases List.mem_cons.mp hx with rfl | hx
      · exact strLe_refl _
      · exfalso
        have hrx : monthLe r x := by
          rcases List.mem_cons.mp hx with rfl | hx
          · exact strLe_refl _
          · exact List.rel_of_pairwise_cons (List.pairwise_cons.mp hp).2 hx
        exact h (strLe_trans hrx hxle)

/-- The selection loop on a sorted list returns the unique entry `n` whose
month equals the largest month ≤ the target among the listed entries. -/
theorem payScan_eq_of_unique {ym : String} {n c : PayRecord}
    {rs : List PayRecord} (hp : List.Pairwise monthLe (c :: rs))
    (hn : n ∈ c :: rs) (hnle : strLe n.month ym = true)
    (hmax : ∀ x ∈ c :: rs, strLe x.month ym = true →
      strLe x.month n.month = true)
    (huniq : ∀ x ∈ c :: rs, x.month = n.month → x = n) :
    payScan ym c (c :: rs) = n := by
  have hcn : monthLe c n := by
    rcases List.mem_cons.mp hn with rfl | hn
    · exact strLe_refl _
    · exact List.rel_of_pairwise_cons hp hn
  have hcym : strLe c.month ym = true := strLe_trans hcn hnle
  have hstep : payScan ym c (c :: rs) = payScan ym c rs := by
    simp [payScan, hcym]
  rw [hstep]
  have hmem := payScan_mem ym c rs
  have h1 : strLe (payScan ym c rs).month n.month = true :=
    hmax _ hmem (payScan_le_ym rs hcym)
  have h2 : monthLe n (payScan ym c rs) := payScan_ge hp n hn hnle
  exact huniq _ hmem (strLe_antisymm h1 h2)

/-- What a successful `normRec` says about its output. -/
theorem normRec_eq_some {r x : PayRecord} (h : normRec r = some x) :
    x.month = pyStrip r.month ∧ x.month ≠ "" := by
  unfold normRec at h
  by_cases hm : pyStrip r.month = ""
  · simp [hm] at h
  · simp only [hm, if_false] at h
    cases h
    exact ⟨rfl, hm⟩

/-- `driver_pay_for_month` as characterised by `payScan_eq_of_unique`, for a
normalised history containing a unique maximal entry `n` with month ≤ `ym`. -/
theorem driver_pay_eq_of_unique (dr : Driver) (ym : String) (n : PayRecord)
    (hn : n ∈ dr.pay_history.filterMap normRec)
    (hnle : strLe n.month ym = true)
    (hmax : ∀ x ∈ dr.pay_history.filterMap normRec,
      strLe x.month ym = true → strLe x.month n.month = true)
    (huniq : ∀ x ∈ dr.pay_history.filterMap normRec,
      x.month = n.month → x = n) :
    driver_pay_for_month dr ym = n := by
  have hperm := sortByMonth_perm (dr.pay_history.filterMap normRec)
  cases hph : dr.pay_history with
  | nil => rw [hph] at hn; simp at hn
  | cons p ps =>
    rw [hph] at hperm hn hmax huniq
    unfold driver_pay_for_month
    rw [hph]
    cases hs : sortByMonth ((p :: ps).filterMap normRec) with
    | nil =>
      rw [hs] at hperm
      rw [← hperm.nil_eq] at hn
      simp at hn
    | cons c rs =>
      rw [hs] at hperm
      refine payScan_eq_of_unique ?_ ?_ hnle ?_ ?_
      · rw [← hs]; exact sortByMonth_pairwise _
      · exact hperm.mem_iff.mpr hn
      · intro x hx; exact hmax x (hperm.mem_iff.mp hx)
      · intro x hx; exact huniq x (hperm.mem_iff.mp hx)

/- ### Claim theorems -/

/-- C1: the Trip Profitability Calculator is claimed to charge each trip the
sum of the derived total costs (liters × cost-per-liter) of the same-vehicle
same-date fuel expenses.  The code (line 3174) sums the raw per-liter `cost`
field instead: for a 100-liter purchase at 2 €/liter it charges 2 rather
than 200. -/
theorem trip_fuel_cost_ignores_liters :
    tripFuelCost modelC1 tripC1 = 2
    ∧ ((modelC1.fuels.filter (fun f => decide (f.truck_id = tripC1.truck_id) &&
        decide (f.fuel_date = tripC1.trip_date))).map fuelTotalCost).sum = 200
    ∧ (2 : ℚ) ≠ 200 := by
  refine ⟨?_, ?_, by norm_num⟩
  · norm_num [tripFuelCost, modelC1, tripC1, fuelC1, List.filter]
  · norm_num [modelC1, tripC1, fuelC1, fuelTotalCost, List.filter]

/-- C5: the two zero-distance policies hold independently — a month whose
in-scope trips have zero total distance gets fleet-blended rate 0, and a
month-vehicle pair whose in-scope trips have zero total distance gets
per-vehicle rate 0 even when other vehicles drove that month; the division
is guarded by the `km > 0` test, so no division is ever attempted there. -/
theorem zero_distance_zero_rate (m : TrucksModel) (py : Option ℤ) (pm : ℤ)
    (sel : Option ℤ) (mk : ℤ × ℤ) (tid : ℤ) :
    (kmByMonth m py pm sel mk = 0 → fleetRatePerKm m py pm sel mk = 0)
    ∧ (kmTruckMonth m py pm sel mk tid = 0 →
        truckRatePerKm m py pm sel mk tid = 0) := by
  constructor
  · intro h1
    simp [fleetRatePerKm, h1]
  · intro h2
    simp [truckRatePerKm, h2]

/-- C5 witness: the fleet rate of an empty month (February 2025) is 0, and
the per-vehicle rate of truck 2 — which logged only a 0 km trip in January
2025 while truck 1 drove 1000 km that month — is also 0. -/
theorem zero_distance_zero_rate_witness :
    fleetRatePerKm modelC5 none 0 none (2025, 2) = 0
    ∧ truckRatePerKm modelC5 none 0 none (2025, 1) 2 = 0 :=
  ⟨(zero_distance_zero_rate modelC5 none 0 none (2025, 2) 2).1 (by decide),
   (zero_distance_zero_rate modelC5 none 0 none (2025, 1) 2).2 (by decide)⟩

/-- C8: the computed due date is the issue date shifted by the credit term in
months — the month index advances by exactly the credit term, the month lands
in 1..12, and the day is the issue day clamped to the target month's last
valid day. -/
theorem due_date_spec (inv : Invoice) (default_rate : ℚ) (as_of : Date) :
    (calc_interest inv default_rate as_of).due_date
      = add_months inv.issue_date inv.credit_months
    ∧ 12 * (add_months inv.issue_date inv.credit_months).year
        + (add_months inv.issue_date inv.credit_months).month
      = 12 * inv.issue_date.year + inv.issue_date.month + inv.credit_months
    ∧ (add_months inv.issue_date inv.credit_months).day
      = min inv.issue_date.day
          (daysInMonth (add_months inv.issue_date inv.credit_months).year
            (add_months inv.issue_date inv.credit_months).month)
    ∧ 1 ≤ (add_months inv.issue_date inv.credit_months).month
    ∧ (add_months inv.issue_date inv.credit_months).month ≤ 12 := by
  have hmod := Int.fmod_eq_emod (inv.issue_date.month - 1 + inv.credit_months)
    (b := 12) (by norm_num)
  refine ⟨rfl, ?_, rfl, ?_, ?_⟩
  · have h := Int.fmod_add_fdiv (inv.issue_date.month - 1 + inv.credit_months) 12
    simp only [add_months]
    ring_nf at h ⊢
    linarith [h]
  · simp only [add_months]
    have := Int.emod_nonneg (inv.issue_date.month - 1 + inv.credit_months)
      (b := 12) (by norm_num)
    rw [hmod]
    omega
  · simp only [add_months]
    have := Int.emod_lt_of_pos (inv.issue_date.month - 1 + inv.credit_months)
      (b := 12) (by norm_num)
    rw [hmod]
    omega

/-- C8 witness: issue 2025-01-31 plus one month clamps to 2025-02-28. -/
theorem due_date_spec_witness :
    (calc_interest invoiceC8 (6/100) ⟨2025, 3, 12⟩).due_date = ⟨2025, 2, 28⟩
    ∧ 12 * (add_months invoiceC8.issue_date invoiceC8.credit_months).year
        + (add_months invoiceC8.issue_date invoiceC8.credit_months).month
      = 12 * invoiceC8.issue_date.year + invoiceC8.issue_date.month
        + invoiceC8.credit_months :=
  ⟨by decide, (due_date_spec invoiceC8 (6/100) ⟨2025, 3, 12⟩).2.1⟩

/-- C9: with a nonnegative amount and applied rate the computed interest is
nonnegative, and it is exactly zero whenever the settlement date (paid date
if present, else the as-of date) is on or before the due date — the delay is
floored at zero, so early payment never produces negative interest. -/
theorem interest_nonneg_and_zero_on_time (inv : Invoice) (default_rate : ℚ)
    (as_of : Date) (hamt : 0 ≤ inv.amount)
    (hrate : 0 ≤ (calc_interest inv default_rate as_of).rate) :
    0 ≤ (calc_interest inv default_rate as_of).interest
    ∧ (toordinal (calc_interest inv default_rate as_of).end_date
        ≤ toordinal (calc_interest inv default_rate as_of).due_date →
       (calc_interest inv default_rate as_of).interest = 0) := by
  have hdelay : 0 ≤ (calc_interest inv default_rate as_of).delay_days := by
    simp only [calc_interest]
    split
    · exact le_refl 0
    · next h => exact Int.not_lt.mp h
  have hie : (calc_interest inv default_rate as_of).interest
      = inv.amount * (calc_interest inv default_rate as_of).rate
        * (((calc_interest inv default_rate as_of).delay_days : ℚ) / 365) := rfl
  constructor
  · rw [hie]
    exact mul_nonneg (mul_nonneg hamt hrate)
      (div_nonneg (by exact_mod_cast hdelay) (by norm_num))
  · intro hle
    have hd0 : (calc_interest inv default_rate as_of).delay_days = 0 := by
      simp only [calc_interest] at hle ⊢
      omega
    rw [hie, hd0]
    norm_num

/-- C9 witness: invoice paid on 2025-02-05, five days before its 2025-02-10
due date, accrues exactly zero interest. -/
theorem interest_witness :
    0 ≤ (calc_interest invoiceC9 (6/100) ⟨2025, 3, 12⟩).interest
    ∧ (calc_interest invoiceC9 (6/100) ⟨2025, 3, 12⟩).interest = 0 := by
  have h := interest_nonneg_and_zero_on_time invoiceC9 (6/100) ⟨2025, 3, 12⟩
    (by norm_num [invoiceC9]) (by norm_num [calc_interest, invoiceC9])
  exact ⟨h.1, h.2 (by decide)⟩

/-- C10: with both range endpoints given, the aggregator's total fixed cost
is the sum, over active vehicles, of the vehicle's fixed monthly cost times
the inclusive month count of the range, inactive vehicles contributing
zero (the code's `fixed_per_month > 0` guard only skips vehicles that would
contribute zero anyway when fixed costs are nonnegative). -/
theorem agg_total_fixed_spec (m : TrucksModel) (d_from d_to : Date)
    (hfix : ∀ t ∈ m.trucks, 0 ≤ t.fixed_monthly_expenses) :
    aggTotalFixed m none d_from d_to
      = (m.trucks.map (fun t =>
          if t.active = true then
            t.fixed_monthly_expenses * (month_diff_inclusive d_from d_to : ℚ)
          else 0)).sum := by
  unfold aggTotalFixed
  refine congrArg List.sum (List.map_congr_left ?_)
  intro t ht
  by_cases ha : t.active = true
  · by_cases hp : 0 < t.fixed_monthly_expenses
    · simp [ha, hp]
    · have h0 : t.fixed_monthly_expenses = 0 :=
        le_antisymm (not_lt.mp hp) (hfix t ht)
      simp [ha, hp, h0]
  · simp [ha]

/-- C10 witness: Jan 15 – Feb 3 counts as 2 months; the active truck (fixed
cost 300) contributes 600 and the inactive one contributes nothing. -/
theorem agg_total_fixed_witness :
    month_diff_inclusive ⟨2025, 1, 15⟩ ⟨2025, 2, 3⟩ = 2
    ∧ aggTotalFixed modelC10 none ⟨2025, 1, 15⟩ ⟨2025, 2, 3⟩
      = (modelC10.trucks.map (fun t =>
          if t.active = true then
            t.fixed_monthly_expenses
              * (month_diff_inclusive ⟨2025, 1, 15⟩ ⟨2025, 2, 3⟩ : ℚ)
          else 0)).sum :=
  ⟨by decide, agg_total_fixed_spec modelC10 ⟨2025, 1, 15⟩ ⟨2025, 2, 3⟩
    (by intro t ht; fin_cases ht <;> norm_num [modelC10])⟩

/-- Resolution with a nonempty sorted normalised history is the selection
loop started at the sorted head. -/
theorem driver_pay_shape (dr : Driver) (ym : String) {c : PayRecord}
    {rs : List PayRecord}
    (hs : sortByMonth (dr.pay_history.filterMap normRec) = c :: rs) :
    driver_pay_for_month dr ym = payScan ym c (c :: rs) := by
  cases hph : dr.pay_history with
  | nil => rw [hph] at hs; simp [sortByMonth] at hs
  | cons p ps =>
    rw [hph] at hs
    unfold driver_pay_for_month
    rw [hph, hs]

/-- C7: resolving a target month strictly earlier than every (well-formed)
history month returns the entry with the smallest month — a real history
entry, not a zeroed or synthesised default. -/
theorem resolve_before_earliest (dr : Driver) (ym : String)
    (hne : dr.pay_history.filterMap normRec ≠ [])
    (hearly : ∀ r ∈ dr.pay_history.filterMap normRec,
      strLe r.month ym = false) :
    driver_pay_for_month dr ym ∈ dr.pay_history.filterMap normRec
    ∧ ∀ r ∈ dr.pay_history.filterMap normRec,
        strLe (driver_pay_for_month dr ym).month r.month = true := by
  cases hs : sortByMonth (dr.pay_history.filterMap normRec) with
  | nil =>
    exfalso
    have hperm := sortByMonth_perm (dr.pay_history.filterMap normRec)
    rw [hs] at hperm
    exact hne hperm.nil_eq.symm
  | cons c rs =>
    have hshape := driver_pay_shape dr ym hs
    have hperm := sortByMonth_perm (dr.pay_history.filterMap normRec)
    rw [hs] at hperm
    have hsorted : List.Pairwise monthLe (c :: rs) := by
      rw [← hs]; exact sortByMonth_pairwise _
    have hc : c ∈ dr.pay_history.filterMap normRec :=
      hperm.mem_iff.mp (List.mem_cons_self c rs)
    have hcym : strLe c.month ym = false := hearly c hc
    have hres : payScan ym c (c :: rs) = c := by
      simp [payScan, hcym]
    rw [hshape, hres]
    refine ⟨hc, ?_⟩
    intro r hr
    rcases List.mem_cons.mp (hperm.mem_iff.mpr hr) with rfl | hr3
    · exact strLe_refl _
    · exact List.rel_of_pairwise_cons hsorted hr3

/-- C7 witness: a target of 2023-01 against history entries for 2024-05 and
2024-09 resolves inside the history and below every entry's month. -/
theorem resolve_before_earliest_witness :
    driver_pay_for_month driverC7 "2023-01"
        ∈ driverC7.pay_history.filterMap normRec
    ∧ ∀ r ∈ driverC7.pay_history.filterMap normRec,
        strLe (driver_pay_for_month driverC7 "2023-01").month r.month = true :=
  resolve_before_earliest driverC7 "2023-01" (by decide) (by decide)

theorem effMode_ne_empty (s : String) : effMode s ≠ "" := by
  by_cases h : s = ""
  · simp [effMode, h]
  · simp [effMode, h]

theorem effMode_effMode (s : String) : effMode (effMode s) = effMode s := by
  by_cases h : s = ""
  · simp [effMode, h]
  · simp [effMode, h]

/-- The record written by the setter survives normalisation unchanged when
its month is already stripped and nonempty. -/
theorem normRec_setterRec (M pm : String) (sal st ptr : ℚ)
    (hM : pyStrip M = M) (hM0 : M ≠ "") :
    normRec ⟨M, effMode pm, sal, st, ptr⟩
      = some ⟨M, effMode pm, sal, st, ptr⟩ := by
  unfold normRec
  simp only [hM, hM0, if_false, effMode_effMode]

/-- The history written by `set_driver_pay_for_month`, for an already
stripped month key. -/
theorem set_pay_history (dr : Driver) (M pm : String) (sal st ptr : ℚ)
    (today : String) (hM : pyStrip M = M) :
    (set_driver_pay_for_month dr M pm sal st ptr today).pay_history
      = sortByMonth
          ((dr.pay_history.filter (fun h => decide (pyStrip h.month ≠ M)))
            ++ [⟨M, effMode pm, sal, st, ptr⟩]) := by
  unfold set_driver_pay_for_month syncDriverLegacyFromHistory
  simp only [hM]

/-- C6: after `set_driver_pay_for_month dr M …S…`, resolving at `M` returns
exactly the stored snapshot, and resolving at any later `Mp` returns the same
snapshot as long as no history entry carries a month after `M`.  `M` is a
well-formed month key: already stripped and nonempty. -/
theorem resolver_set_roundtrip (dr : Driver) (M Mp pm : String)
    (sal st ptr : ℚ) (today : String)
    (hM : pyStrip M = M) (hM0 : M ≠ "") :
    driver_pay_for_month (set_driver_pay_for_month dr M pm sal st ptr today) M
      = ⟨M, effMode pm, sal, st, ptr⟩
    ∧ (strLe Mp M = false →
       (∀ r ∈ dr.pay_history, strLe (pyStrip r.month) M = true) →
       driver_pay_for_month
           (set_driver_pay_for_month dr M pm sal st ptr today) Mp
         = ⟨M, effMode pm, sal, st, ptr⟩) := by
  set n : PayRecord := ⟨M, effMode pm, sal, st, ptr⟩ with hn
  set dr2 := set_driver_pay_for_month dr M pm sal st ptr today with hdr2
  set kept := dr.pay_history.filter (fun h => decide (pyStrip h.month ≠ M))
    with hkept
  have hhist : dr2.pay_history = sortByMonth (kept ++ [n]) :=
    set_pay_history dr M pm sal st ptr today hM
  have hperm : (dr2.pay_history.filterMap normRec).Perm
      ((kept ++ [n]).filterMap normRec) := by
    rw [hhist]
    exact (sortByMonth_perm (kept ++ [n])).filterMap normRec
  have hnn : normRec n = some n := normRec_setterRec M pm sal st ptr hM hM0
  have heq : (kept ++ [n]).filterMap normRec
      = kept.filterMap normRec ++ [n] := by
    rw [List.filterMap_append]
    simp [hnn]
  have hnmem : n ∈ dr2.pay_history.filterMap normRec := by
    apply hperm.mem_iff.mpr
    rw [heq]
    exact List.mem_append_right _ (List.mem_singleton.mpr rfl)
  have hkeptmonth : ∀ x ∈ kept.filterMap normRec, x.month ≠ M := by
    intro x hx
    rcases List.mem_filterMap.mp hx with ⟨y, hy, hyx⟩
    have h1 := (normRec_eq_some hyx).1
    rw [hkept] at hy
    have hy2 : pyStrip y.month ≠ M := by
      have h3 := (List.mem_filter.mp hy).2
      simpa using h3
    rw [h1]
    exact hy2
  have huniq : ∀ x ∈ dr2.pay_history.filterMap normRec,
      x.month = n.month → x = n := by
    intro x hx hxm
    have hx2 : x ∈ kept.filterMap normRec ++ [n] := by
      rw [← heq]
      exact hperm.mem_iff.mp hx
    rcases List.mem_append.mp hx2 with hx3 | hx3
    · exact absurd hxm (hkeptmonth x hx3)
    · exact List.mem_singleton.mp hx3
  have hnM : n.month = M := rfl
  constructor
  · refine driver_pay_eq_of_unique dr2 M n hnmem ?_ ?_ huniq
    · rw [hnM]; exact strLe_refl M
    · intro x _ hx; rw [hnM]; exact hx
  · intro hMp hno
    refine driver_pay_eq_of_unique dr2 Mp n hnmem ?_ ?_ huniq
    · rw [hnM]; exact strLe_of_not_le hMp
    · intro x hx _
      rw [hnM]
      have hx2 : x ∈ kept.filterMap normRec ++ [n] := by
        rw [← heq]
        exact hperm.mem_iff.mp hx
      rcases List.mem_append.mp hx2 with hx3 | hx3
      · rcases List.mem_filterMap.mp hx3 with ⟨y, hy, hyx⟩
        rw [(normRec_eq_some hyx).1]
        rw [hkept] at hy
        exact hno y (List.mem_filter.mp hy).1
      · rw [List.mem_singleton.mp hx3, hnM]
        exact strLe_refl M

/-- C6 witness: storing a per-trip snapshot for 2025-03 over a 2024-05
history entry; resolving at 2025-03 and at the later 2025-07 both return the
stored snapshot. -/
theorem resolver_set_roundtrip_witness :
    driver_pay_for_month
        (set_driver_pay_for_month driverC6 "2025-03" "per_trip" 0 90 25
          "2025-03") "2025-03"
      = ⟨"2025-03", effMode "per_trip", 0, 90, 25⟩
    ∧ driver_pay_for_month
        (set_driver_pay_for_month driverC6 "2025-03" "per_trip" 0 90 25
          "2025-03") "2025-07"
      = ⟨"2025-03", effMode "per_trip", 0, 90, 25⟩ := by
  have h := resolver_set_roundtrip driverC6 "2025-03" "2025-07" "per_trip"
    0 90 25 "2025-03" (by decide) (by decide)
  exact ⟨h.1, h.2 (by decide) (by decide)⟩

/-- C2 counterexample: the gross-profit computation (line 3178) subtracts the
trip's stored `driver_pay` unconditionally, never consulting the assigned
driver's current pay mode.  For a trip carrying stored pay 50 whose driver is
currently in monthly mode (all other components zero) the code's gross profit
is -50, while the claim demands a zero driver-pay deduction and hence gross
profit 0. -/
theorem gross_profit_monthly_driver_pay_subtracted :
    grossProfit modelC2 tripC2 = -50
    ∧ tripC2.revenue - tripCommission tripC2 - tripC2.toll_amount
        - tripWearCost modelC2 tripC2 - tripFuelCost modelC2 tripC2
        - specDirectDriverPay modelC2 tripC2 = 0
    ∧ (-50 : ℚ) ≠ 0 := by
  refine ⟨?_, ?_, by norm_num⟩
  · norm_num [grossProfit, modelC2, tripC2, driverC2, tripCommission,
      tripWearCost, tripFuelCost, wear_rate_for_truck, truck_by_id,
      List.filter, List.find?]
  · norm_num [specDirectDriverPay, modelC2, tripC2, driverC2, driver_by_id,
      tripCommission, tripWearCost, tripFuelCost, wear_rate_for_truck,
      truck_by_id, List.filter, List.find?, effMode]
    decide

/-- C2 amended: the gross profit always subtracts the stored `driver_pay`
value as is; the claimed mode gating happens when the value is stored —
`add_trip`/`update_trip` write `_calc_driver_pay(driver_id)` into the trip —
so whenever the stored value is consistent with the current registry (no pay
mode changed since the trip was written), the deduction equals the claim's
value: the stored pay for a current per-trip driver, 0 for a missing driver
or a current monthly-mode driver. -/
theorem gross_profit_driver_pay_amended (m : TrucksModel) (tr : Trip)
    (h : tr.driver_pay = calc_driver_pay m tr.driver_id) :
    grossProfit m tr
      = tr.revenue - tripCommission tr - tr.toll_amount - tripWearCost m tr
        - tripFuelCost m tr - specDirectDriverPay m tr := by
  have hpay : tr.driver_pay = specDirectDriverPay m tr := by
    cases htr : tr.driver_id with
    | none =>
      simp only [calc_driver_pay, htr] at h
      simp only [specDirectDriverPay, htr]
      exact h
    | some did =>
      cases hdb : driver_by_id m did with
      | none =>
        simp only [calc_driver_pay, htr, hdb] at h
        simp only [specDirectDriverPay, htr, hdb]
        exact h
      | some d =>
        simp only [calc_driver_pay, htr, hdb] at h
        simp only [specDirectDriverPay, htr, hdb]
        by_cases hm : effMode d.pay_mode = "per_trip"
        · simp [hm]
        · simp only [hm, if_false]
          simp only [ne_eq, hm, not_false_iff, if_true] at h
          exact h
  unfold grossProfit
  rw [hpay]

/-- C2 amended witness: a per-trip driver (rate 70) and a trip whose stored
pay matches `_calc_driver_pay`. -/
theorem gross_profit_driver_pay_amended_witness :
    grossProfit modelC2w tripC2w
      = tripC2w.revenue - tripCommission tripC2w - tripC2w.toll_amount
        - tripWearCost modelC2w tripC2w - tripFuelCost modelC2w tripC2w
        - specDirectDriverPay modelC2w tripC2w :=
  gross_profit_driver_pay_amended modelC2w tripC2w (by decide)

/-- C3 counterexample: the Distance-Weighted Cost Allocator of `TripsPage`
(lines 3098-3106) takes stamp/salary from the driver's flat current fields,
not from the month's snapshot.  For a January 2025 trip, `driverC3`'s payroll
allocation is 900 (current fields: salary 800 + stamps 100), while the
Temporal Rate Resolver's January snapshot totals 550 (salary 500 + stamps
50); under the claim the allocation would have been 550. -/
theorem allocator_flat_fields_counterexample :
    payrollTruckMonth modelC3 none 0 none (2025, 1) 1 = 900
    ∧ (driver_pay_for_month driverC3 "2025-01").stamp_cost
        + (driver_pay_for_month driverC3 "2025-01").salary = 550
    ∧ (900 : ℚ) ≠ 550 := by
  refine ⟨?_, ?_, by norm_num⟩
  · norm_num [payrollTruckMonth, modelC3, driverC3, tripC3, driverMonthCostCur,
      kmDriverMonth, kmDriverTruckMonth, tripInScope, in_period, truckMatch,
      monthKey, effMode, List.filter]
  · have h : driver_pay_for_month driverC3 "2025-01"
        = ⟨"2025-01", "monthly", 500, 50, 0⟩ := by decide
    rw [h]
    norm_num

/-- Resolution ignores the driver's flat current fields whenever the
normalised history is nonempty. -/
theorem driver_pay_flat_invariant (d : Driver) (s c ptr : ℚ) (pm ym : String)
    (hne : d.pay_history.filterMap normRec ≠ []) :
    driver_pay_for_month (withFlatPay d s c pm ptr) ym
      = driver_pay_for_month d ym := by
  have hh : (withFlatPay d s c pm ptr).pay_history = d.pay_history := rfl
  cases hs : sortByMonth (d.pay_history.filterMap normRec) with
  | nil =>
    exfalso
    have hperm := sortByMonth_perm (d.pay_history.filterMap normRec)
    rw [hs] at hperm
    exact hne hperm.nil_eq.symm
  | cons c0 rs =>
    have hs2 : sortByMonth
        ((withFlatPay d s c pm ptr).pay_history.filterMap normRec)
        = c0 :: rs := by
      rw [hh]
      exact hs
    rw [driver_pay_shape _ ym hs2, driver_pay_shape d ym hs]

/-- C3 amended: the Period Aggregator's monthly stamp/salary figures come
from the Temporal Rate Resolver — for a driver with (well-formed) history
they are unchanged by any rewrite of the flat current fields — while the
cost the Distance-Weighted Cost Allocator attributes to a driver-month is
built from the flat current fields only, unchanged by any rewrite of the
history. -/
theorem resolver_feeds_aggregator_not_allocator (d : Driver) (s c ptr : ℚ)
    (pm : String) (hist : List PayRecord) (tks : List Truck)
    (tps : List Trip) (fus : List FuelExpense) (w : ℚ) (rs re : Date)
    (ym : String) (hne : d.pay_history.filterMap normRec ≠ []) :
    driver_pay_for_month (withFlatPay d s c pm ptr) ym
        = driver_pay_for_month d ym
    ∧ aggTotalStamps ⟨tks, tps, fus, [withFlatPay d s c pm ptr], w⟩ none rs re
        = aggTotalStamps ⟨tks, tps, fus, [d], w⟩ none rs re
    ∧ aggTotalSalary ⟨tks, tps, fus, [withFlatPay d s c pm ptr], w⟩ none rs re
        = aggTotalSalary ⟨tks, tps, fus, [d], w⟩ none rs re
    ∧ driverMonthCostCur (withHistory d hist) = driverMonthCostCur d := by
  have hres : ∀ ym2 : String,
      driver_pay_for_month (withFlatPay d s c pm ptr) ym2
        = driver_pay_for_month d ym2 :=
    fun ym2 => driver_pay_flat_invariant d s c ptr pm ym2 hne
  have hiter : aggDriversIter ⟨tks, tps, fus, [withFlatPay d s c pm ptr], w⟩
      none = if d.active = true then [withFlatPay d s c pm ptr] else [] := by
    by_cases hda : d.active = true
    · simp [aggDriversIter, List.filter, withFlatPay, hda]
    · simp [aggDriversIter, List.filter, withFlatPay, hda]
  have hiter2 : aggDriversIter ⟨tks, tps, fus, [d], w⟩ none
      = if d.active = true then [d] else [] := by
    by_cases hda : d.active = true
    · simp [aggDriversIter, List.filter, hda]
    · simp [aggDriversIter, List.filter, hda]
  refine ⟨hres ym, ?_, ?_, rfl⟩
  · unfold aggTotalStamps
    simp only [hiter, hiter2]
    by_cases hda : d.active = true
    · simp only [hda, if_true]
      refine congrArg List.sum (List.map_congr_left ?_)
      intro p _
      simp only [List.map, List.sum_cons, List.sum_nil]
      rw [hres (ymStr p.1 p.2)]
    · simp [hda]
  · unfold aggTotalSalary
    simp only [hiter, hiter2]
    by_cases hda : d.active = true
    · simp only [hda, if_true]
      refine congrArg List.sum (List.map_congr_left ?_)
      intro p _
      simp only [List.map, List.sum_cons, List.sum_nil]
      rw [hres (ymStr p.1 p.2)]
    · simp [hda]

/-- C3 amended witness: the invariances evaluated on `driverC3`'s two-entry
history. -/
theorem resolver_feeds_aggregator_witness :
    driver_pay_for_month (withFlatPay driverC3 1 2 "x" 3) "2025-01"
        = driver_pay_for_month driverC3 "2025-01"
    ∧ aggTotalStamps ⟨[], [], [], [withFlatPay driverC3 1 2 "x" 3], 0⟩ none
          ⟨2025, 1, 1⟩ ⟨2025, 1, 31⟩
        = aggTotalStamps ⟨[], [], [], [driverC3], 0⟩ none
          ⟨2025, 1, 1⟩ ⟨2025, 1, 31⟩
    ∧ aggTotalSalary ⟨[], [], [], [withFlatPay driverC3 1 2 "x" 3], 0⟩ none
          ⟨2025, 1, 1⟩ ⟨2025, 1, 31⟩
        = aggTotalSalary ⟨[], [], [], [driverC3], 0⟩ none
          ⟨2025, 1, 1⟩ ⟨2025, 1, 31⟩
    ∧ driverMonthCostCur (withHistory driverC3 []) = driverMonthCostCur driverC3 :=
  resolver_feeds_aggregator_not_allocator driverC3 1 2 3 "x" [] [] [] [] 0
    ⟨2025, 1, 1⟩ ⟨2025, 1, 31⟩ "2025-01" (by decide)

/-- C4: in the scenario of one active vehicle (fixed 300/month) and one
active monthly driver (salary 800, stamps 100) driving only that vehicle in
March 2025 for 2000 km total, the fleet-blended rate is 1200/2000 = 0.60 per
km and the per-vehicle allocated cost of the 500 km trip is exactly 300; in
general, a single-truck single-driver single-trip month allocates exactly
the vehicle's fixed cost plus the driver's stamp cost plus salary (salary
only in monthly mode) — nothing lost or duplicated. -/
theorem allocator_conservation :
    (fleetRatePerKm modelC4 none 0 none (2025, 3) = 3/5
     ∧ fixedShareTruck modelC4 none 0 none tripC4a = 300)
    ∧ ∀ (t : Truck) (d : Driver) (tr : Trip) (fus : List FuelExpense) (w : ℚ),
        t.active = true → d.active = true → tr.truck_id = t.tid →
        tr.driver_id = some d.did → 0 < tr.trip_km →
        fixedShareTruck ⟨[t], [tr], fus, [d], w⟩ none 0 none tr
          = t.fixed_monthly_expenses + d.stamp_cost
            + (if effMode d.pay_mode = "monthly" then d.salary else 0) := by
  constructor
  · constructor
    · norm_num [fleetRatePerKm, modelC4, truckC4, driverC4, tripC4a, tripC4b,
        kmByMonth, fixedPerMonthTotal, fixedTrucksPerMonth, stampsPerMonth,
        salaryPerMonth, tripInScope, in_period, truckMatch, monthKey, effMode,
        List.filter]
    · norm_num [fixedShareTruck, truckRatePerKm, modelC4, truckC4, driverC4,
        tripC4a, tripC4b, kmTruckMonth, truckFixedIfActive, payrollTruckMonth,
        driverMonthCostCur, kmDriverMonth, kmDriverTruckMonth, truck_by_id,
        tripInScope, in_period, truckMatch, monthKey, effMode, List.filter,
        List.find?]
  · intro t d tr fus w ht hd htid hdid hkm
    have hkmne : tr.trip_km ≠ 0 := ne_of_gt hkm
    have hkmq : (tr.trip_km : ℚ) ≠ 0 := Int.cast_ne_zero.mpr hkmne
    have hkmt : kmTruckMonth ⟨[t], [tr], fus, [d], w⟩ none 0 none
        (monthKey tr.trip_date) tr.truck_id = tr.trip_km := by
      simp [kmTruckMonth, tripInScope, in_period, truckMatch, List.filter]
    have hkmd : kmDriverMonth ⟨[t], [tr], fus, [d], w⟩ none 0 none
        (monthKey tr.trip_date) d.did = tr.trip_km := by
      simp [kmDriverMonth, tripInScope, in_period, truckMatch, List.filter,
        hdid]
    have hkmdt : kmDriverTruckMonth ⟨[t], [tr], fus, [d], w⟩ none 0 none
        (monthKey tr.trip_date) d.did tr.truck_id = tr.trip_km := by
      simp [kmDriverTruckMonth, tripInScope, in_period, truckMatch,
        List.filter, hdid]
    have hfind : truck_by_id ⟨[t], [tr], fus, [d], w⟩ tr.truck_id = some t := by
      simp [truck_by_id, List.find?, htid]
    have hfixed : truckFixedIfActive ⟨[t], [tr], fus, [d], w⟩ tr.truck_id
        = t.fixed_monthly_expenses := by
      simp [truckFixedIfActive, hfind, ht]
    have hpay : payrollTruckMonth ⟨[t], [tr], fus, [d], w⟩ none 0 none
        (monthKey tr.trip_date) tr.truck_id = driverMonthCostCur d := by
      by_cases hc : driverMonthCostCur d = 0
      · simp [payrollTruckMonth, hc]
      · simp only [payrollTruckMonth, List.map, List.sum_cons, List.sum_nil,
          hkmd, hkmdt, hd, hc, hkmne, ne_eq, not_false_iff, and_self,
          if_true, add_zero, true_and]
        rw [div_self hkmq, mul_one]
    have hrate : truckRatePerKm ⟨[t], [tr], fus, [d], w⟩ none 0 none
        (monthKey tr.trip_date) tr.truck_id
        = (t.fixed_monthly_expenses + driverMonthCostCur d)
          / (tr.trip_km : ℚ) := by
      simp [truckRatePerKm, hkmt, hkm, hfixed, hpay]
    unfold fixedShareTruck
    rw [hrate, div_mul_cancel₀ _ hkmq]
    unfold driverMonthCostCur
    ring

/-- C4 witness: the general conservation identity applied to the single
500 km trip alone. -/
theorem allocator_conservation_witness :
    fixedShareTruck ⟨[truckC4], [tripC4a], [], [driverC4], 0⟩ none 0 none
        tripC4a
      = truckC4.fixed_monthly_expenses + driverC4.stamp_cost
        + (if effMode driverC4.pay_mode = "monthly" then driverC4.salary
           else 0) :=
  allocator_conservation.2 truckC4 driverC4 tripC4a [] 0 rfl rfl rfl rfl
    (by decide)
